import Mathlib

/-!
# pluginhooks: the plugin contract and the `Serve` bootstrap

A shallow embedding of `plugin.go`.

* Go strings are Lean strings; where the code looks at single bytes
  (`strconv.Atoi`) the string is read through its UTF-8 bytes.
* Machine integers are `Nat` / `Int` with explicit reduction modulo `2 ^ 64`
  (`int` and `uint` are 64 bits wide, `strconv.IntSize = 64`).
* The process environment is a lookup function; `hcplugin.Serve` is the
  external transport, so `Serve` is modelled by the effect it has on it: the
  list of `ServeConfig` values handed to the transport and the panic value.
* A plugin implementation is stateful Go code: its three methods are state
  passing functions over an implementation state `σ`, and they give back the
  two pointed-to arguments as they leave them.
-/

set_option linter.dupNamespace false

namespace pluginhooks

/-! ## Go strings and machine integers -/

/-- The bytes of a Go string, `[]byte(s)`, as naturals below 256. -/
def goBytes (s : String) : List Nat :=
  s.toUTF8.data.toList.map UInt8.toNat

/-- Conversion to `uint64`: reduction modulo `2 ^ 64`. -/
def toUint64 (i : Int) : Nat :=
  (i % 2 ^ 64).toNat

/-- Conversion to `int64` (and to `int`): the two's complement
representative in `[-2 ^ 63, 2 ^ 63)`. -/
def toInt64 (i : Int) : Int :=
  (i + 2 ^ 63) % 2 ^ 64 - 2 ^ 63

/-- A Go `error` value: `none` is `nil`, `some msg` a non-nil error. -/
abbrev GoError := Option String

/-! ## `strconv` (Go standard library), as used by `Serve` -/

namespace strconv

/-- The constant `strconv.IntSize`: the size in bits of `int` and `uint`. -/
def IntSize : Nat := 64

/-- The two sentinel errors a `*NumError` of `strconv` carries. -/
inductive NumError where
  | ErrSyntax
  | ErrRange
  deriving DecidableEq, Repr

/-- The helper `lower(c) = c | ('x' - 'X')`. -/
def lower (c : Nat) : Nat :=
  c ||| 32

/-- The `switch` of the loop of `ParseUint` (with `base0 = false`, so that
the underscore case is not taken): the digit value of byte `c`, or `none`
in the `default` case. -/
def digitOf (c : Nat) : Option Nat :=
  if 48 ≤ c ∧ c ≤ 57 then some (c - 48)
  else if 97 ≤ lower c ∧ lower c ≤ 122 then some (lower c - 97 + 10)
  else none

/-- The loop of `ParseUint(s, base, bitSize)` over the bytes left, `n` being
the `uint64` accumulated so far. -/
def parseUintLoop (base cutoff maxVal : Nat) : List Nat → Nat → Nat × Option NumError
  | [], n => (n, none)
  | c :: cs, n =>
    match digitOf c with
    | none => (0, some .ErrSyntax)
    | some d =>
      if d ≥ base then (0, some .ErrSyntax)
      else if n ≥ cutoff then (maxVal, some .ErrRange)
      else
        let n' := (n * base) % 2 ^ 64
        let n1 := (n' + d) % 2 ^ 64
        if n1 < n' ∨ n1 > maxVal then (maxVal, some .ErrRange)
        else parseUintLoop base cutoff maxVal cs n1

/-- The function `ParseUint(s, 10, bitSize)` on the bytes of `s`, for
`0 ≤ bitSize ≤ 64`. -/
def ParseUint (s : List Nat) (bitSize : Nat) : Nat × Option NumError :=
  if s = [] then (0, some .ErrSyntax)
  else
    let bitSize := if bitSize = 0 then IntSize else bitSize
    let cutoff := (2 ^ 64 - 1) / 10 + 1
    let maxVal := (2 ^ bitSize % 2 ^ 64 + 2 ^ 64 - 1) % 2 ^ 64
    parseUintLoop 10 cutoff maxVal s 0

/-- The function `ParseInt(s, 10, bitSize)` on the bytes of `s`. -/
def ParseInt (s : List Nat) (bitSize : Nat) : Int × Option NumError :=
  if s = [] then (0, some .ErrSyntax)
  else
    let neg := s.head? = some 45
    let s' := if s.head? = some 43 ∨ s.head? = some 45 then s.tail else s
    match ParseUint s' bitSize with
    | (_, some .ErrSyntax) => (0, some .ErrSyntax)
    | (un, _) =>
      let bitSize := if bitSize = 0 then IntSize else bitSize
      let cutoff := 2 ^ (bitSize - 1) % 2 ^ 64
      if ¬ neg ∧ un ≥ cutoff then (toInt64 (cutoff - 1 : Nat), some .ErrRange)
      else if neg ∧ un > cutoff then (toInt64 (-toInt64 cutoff), some .ErrRange)
      else
        let n := toInt64 un
        (if neg then toInt64 (-n) else n, none)

/-- The loop of the fast path of `Atoi`: `ch -= '0'` on a byte, then
`n = n*10 + int(ch)`. -/
def atoiLoop : List Nat → Int → Option Int
  | [], n => some n
  | ch :: cs, n =>
    let ch := (ch + 256 - 48) % 256
    if ch > 9 then none
    else atoiLoop cs (toInt64 (toInt64 (n * 10) + ch))

/-- The function `strconv.Atoi` on the bytes of `s`: the value and the
error it returns. -/
def Atoi (s : List Nat) : Int × Option NumError :=
  let sLen := s.length
  if (IntSize = 32 ∧ 0 < sLen ∧ sLen < 10) ∨ (IntSize = 64 ∧ 0 < sLen ∧ sLen < 19) then
    let signed := s.head? = some 45 ∨ s.head? = some 43
    let s' := if signed then s.tail else s
    if signed ∧ s'.length < 1 then (0, some .ErrSyntax)
    else
      match atoiLoop s' 0 with
      | none => (0, some .ErrSyntax)
      | some n => (if s.head? = some 45 then toInt64 (-n) else n, none)
  else
    let r := ParseInt s 0
    (toInt64 r.1, r.2)

end strconv

/-! ## `os.Getenv` -/

/-- The process environment: the value of a variable, `none` when it is
unset (the view `os.LookupEnv` gives). -/
abbrev Environ := String → Option String

/-- The function `os.Getenv`: the value of the variable, empty when the
variable is not present. -/
def Getenv (env : Environ) (key : String) : String :=
  (env key).getD ""

/-! ## The data exchanged with a plugin -/

/-- A value of Go type `any`, as far as configuration data needs it. -/
inductive GoAny where
  | nil
  | str (s : String)
  | num (n : Int)
  | bool (b : Bool)
  | seq (l : List GoAny)
  | map (m : List (String × GoAny))

/-- The constants of type `RPCPluginMethod`: the names of the RPC methods. -/
abbrev RPCPluginMethod := String

/-- The constant `RPCPluginMethodOnConnect`. -/
def RPCPluginMethodOnConnect : RPCPluginMethod := "OnConnect"

/-- The constant `RPCPluginMethodOnReceive`. -/
def RPCPluginMethodOnReceive : RPCPluginMethod := "OnReceive"

/-- The constant `RPCPluginMethodOnSend`. -/
def RPCPluginMethodOnSend : RPCPluginMethod := "OnSend"

/-- The type `Empty`. -/
structure Empty where
  deriving DecidableEq, Repr

/-- The type `Config`. -/
structure Config where
  SessionID : String
  UserID : String
  Config : List (String × GoAny)
  ConnectionName : String
  ConnectionType : String
  ConnectionEnvVars : List (String × GoAny)
  ConnectionCommand : List String
  ClientArgs : List String
  ClientVerb : String

/-- The type `Request`; a `[]byte` is `none` when it is the nil slice. -/
structure Request where
  PacketType : String
  Payload : Option (List Nat)
  deriving DecidableEq, Repr

/-- The type `Response`. -/
structure Response where
  Payload : Option (List Nat)
  Err : GoError
  deriving DecidableEq, Repr

/-- What a call `m(arg, reply)` of a method of the implementation leaves
behind: the state of the implementation, the two pointed-to arguments, and
the `error` returned. -/
structure Call (σ α β : Type) where
  state : σ
  arg : α
  reply : β
  err : GoError

/-- The interface `Plugin`: the three methods of an implementation whose
state has type `σ`. -/
structure Plugin (σ : Type) where
  OnConnect : σ → Config → Empty → Call σ Config Empty
  OnReceive : σ → Request → Response → Call σ Request Response
  OnSend : σ → Request → Response → Call σ Request Response

/-- The type `plugin`: a struct whose only (embedded) field is a `Plugin`. -/
structure plugin (σ : Type) where
  Plugin : Plugin σ

/-- The method `OnConnect` of `plugin`, promoted from the embedded field. -/
def plugin.OnConnect {σ : Type} (p : plugin σ) : σ → Config → Empty → Call σ Config Empty :=
  p.Plugin.OnConnect

/-- The method `OnReceive` of `plugin`, promoted from the embedded field. -/
def plugin.OnReceive {σ : Type} (p : plugin σ) :
    σ → Request → Response → Call σ Request Response :=
  p.Plugin.OnReceive

/-- The method `OnSend` of `plugin`, promoted from the embedded field. -/
def plugin.OnSend {σ : Type} (p : plugin σ) :
    σ → Request → Response → Call σ Request Response :=
  p.Plugin.OnSend

/-- What a registration callback returns: the state of the implementation
afterwards, the `interface{}` value (`none` is `nil`) and the `error`. -/
structure Registered (σ : Type) where
  state : σ
  value : Option (plugin σ)
  err : GoError

/-- The method `(p *plugin) Server(*hcplugin.MuxBroker)`: `return p, nil`.
The broker is of an external type `β`. -/
def plugin.Server {σ β : Type} (p : plugin σ) (_broker : Option β) (s : σ) : Registered σ :=
  { state := s, value := some p, err := none }

/-- The method `(p *plugin) Client(*hcplugin.MuxBroker, *rpc.Client)`:
`return nil, nil`. The broker and the client are of external types. -/
def plugin.Client {σ β γ : Type} (_p : plugin σ) (_broker : Option β) (_client : Option γ)
    (s : σ) : Registered σ :=
  { state := s, value := none, err := none }

/-! ## The bootstrap `Serve` -/

/-- The type `hcplugin.HandshakeConfig`, with the fields `Serve` sets;
`ProtocolVersion` is a `uint`. -/
structure HandshakeConfig where
  ProtocolVersion : Nat
  MagicCookieKey : String
  MagicCookieValue : String
  deriving DecidableEq, Repr

/-- The type `hcplugin.ServeConfig`, with the fields `Serve` sets; the map
`Plugins` is the list of its entries. -/
structure ServeConfig (σ : Type) where
  HandshakeConfig : HandshakeConfig
  Plugins : List (String × plugin σ)

/-- What running `Serve` does: the calls of `hcplugin.Serve` it makes, in
order, and the value it panics with, if it panics. -/
structure Effect (σ : Type) where
  served : List (ServeConfig σ)
  panicked : Option String

/-- The message `Serve` panics with. -/
def missingEnvVars : String :=
  "missing required env vars [MAGIC_COOKIE_KEY, MAGIC_COOKIE_VAL, PLUGIN_NAME, PLUGIN_VERSION]"

/-- The function `Serve`. -/
def Serve {σ : Type} (env : Environ) (pl : Plugin σ) : Effect σ :=
  let cookieKey := Getenv env "MAGIC_COOKIE_KEY"
  let cookieVal := Getenv env "MAGIC_COOKIE_VAL"
  let pluginName := Getenv env "PLUGIN_NAME"
  let pluginVersion := (strconv.Atoi (goBytes (Getenv env "PLUGIN_VERSION"))).1
  if cookieKey = "" ∨ cookieVal = "" ∨ pluginName = "" ∨ pluginVersion = 0 then
    { served := [], panicked := some missingEnvVars }
  else
    { served :=
        [{ HandshakeConfig :=
             { ProtocolVersion := toUint64 pluginVersion
               MagicCookieKey := cookieKey
               MagicCookieValue := cookieVal }
           Plugins := [(pluginName, { Plugin := pl })] }]
      panicked := none }

/-- An environment given by the list of its variables. -/
def envOf (vars : List (String × String)) : Environ :=
  fun key => (vars.find? (fun kv => kv.1 == key)).map (fun kv => kv.2)

/-- An implementation with no state that leaves everything as it is. -/
def idlePlugin : Plugin Unit where
  OnConnect := fun s c e => { state := s, arg := c, reply := e, err := none }
  OnReceive := fun s r w => { state := s, arg := r, reply := w, err := none }
  OnSend := fun s r w => { state := s, arg := r, reply := w, err := none }

/-- The environment of the scenarios: key `k`, value `v`, name `demo`, and
the given text as the version. -/
def demoEnv (version : String) : Environ :=
  envOf [("MAGIC_COOKIE_KEY", "k"), ("MAGIC_COOKIE_VAL", "v"), ("PLUGIN_NAME", "demo"),
    ("PLUGIN_VERSION", version)]

/-- An implementation whose packet callbacks answer with the payload of the
request followed by `mutated`, and report no failure. -/
def mutatingPlugin : Plugin Unit where
  OnConnect := fun s c e => { state := s, arg := c, reply := e, err := none }
  OnReceive := fun s r w =>
    { state := s, arg := r, err := none
      reply := { w with Payload := r.Payload.map (· ++ goBytes "mutated") } }
  OnSend := fun s r w =>
    { state := s, arg := r, err := none
      reply := { w with Payload := r.Payload.map (· ++ goBytes "mutated") } }

/-- An implementation whose packet callbacks set the failure value of the
response (and a payload) and return `nil`. -/
def flaggingPlugin : Plugin Unit where
  OnConnect := fun s c e => { state := s, arg := c, reply := e, err := none }
  OnReceive := fun s r _ =>
    { state := s, arg := r, err := none, reply := { Payload := r.Payload, Err := some "stop" } }
  OnSend := fun s r _ =>
    { state := s, arg := r, err := none, reply := { Payload := r.Payload, Err := some "stop" } }

/-- An implementation whose state counts the calls of its methods. -/
def countingPlugin : Plugin Nat where
  OnConnect := fun s c e => { state := s + 1, arg := c, reply := e, err := none }
  OnReceive := fun s r w => { state := s + 1, arg := r, reply := w, err := none }
  OnSend := fun s r w => { state := s + 1, arg := r, reply := w, err := none }

/-- The request of the scenarios: an `http` packet with payload `GET /`. -/
def httpRequest : Request :=
  { PacketType := "http", Payload := some (goBytes "GET /") }

/-- The response the transport hands to a callback: nothing set. -/
def emptyResponse : Response :=
  { Payload := none, Err := none }

/-- The value of a run of decimal digits read after the value `acc`. -/
def digitsValue (acc : Nat) (ds : List Nat) : Nat :=
  ds.foldl (fun a d => a * 10 + d) acc

/-! ## Machine integers -/

theorem toInt64_range (i : Int) : -2 ^ 63 ≤ toInt64 i ∧ toInt64 i < 2 ^ 63 := by
  unfold toInt64
  omega

theorem toInt64_of_range {i : Int} (h1 : -2 ^ 63 ≤ i) (h2 : i < 2 ^ 63) : toInt64 i = i := by
  unfold toInt64
  omega

theorem toInt64_neg_ne_zero {i : Int} (h : i ≠ 0) (h1 : -2 ^ 63 ≤ i) (h2 : i < 2 ^ 63) :
    toInt64 (-i) ≠ 0 := by
  unfold toInt64
  omega

theorem toUint64_ne_zero {v : Int} (h1 : -2 ^ 63 ≤ v) (h2 : v < 2 ^ 63) (h : v ≠ 0) :
    toUint64 v ≠ 0 := by
  unfold toUint64
  omega

theorem toUint64_natCast {n : Nat} (h : n < 2 ^ 64) : toUint64 (n : Int) = n := by
  unfold toUint64
  omega

/-! ## Runs of digits -/

theorem le_digitsValue (ds : List Nat) : ∀ acc, acc ≤ digitsValue acc ds := by
  induction ds with
  | nil => intro acc; exact Nat.le_refl _
  | cons d ds ih =>
    intro acc
    have h := ih (acc * 10 + d)
    simp only [digitsValue, List.foldl_cons] at h ⊢
    omega

theorem digitsValue_cons (acc d : Nat) (ds : List Nat) :
    digitsValue acc (d :: ds) = digitsValue (acc * 10 + d) ds := rfl

namespace strconv

theorem digitOf_digit {d : Nat} (h : d < 10) : digitOf (48 + d) = some d := by
  unfold digitOf
  rw [if_pos (by omega)]
  congr 1
  omega

theorem atoiLoop_digits (ds : List Nat) (hd : ∀ d ∈ ds, d < 10) :
    ∀ acc : Nat, digitsValue acc ds < 2 ^ 63 →
      atoiLoop (ds.map (48 + ·)) (acc : Int) = some (digitsValue acc ds : Int) := by
  induction ds with
  | nil => intro acc _; rfl
  | cons d ds ih =>
    intro acc hv
    have hd10 : d < 10 := hd d (List.mem_cons_self _ _)
    rw [digitsValue_cons] at hv ⊢
    have hle := le_digitsValue ds (acc * 10 + d)
    have hch : (48 + d + 256 - 48) % 256 = d := by omega
    have hmul : toInt64 ((acc : Int) * 10) = (acc : Int) * 10 :=
      toInt64_of_range (by omega) (by omega)
    have hstep : toInt64 (toInt64 ((acc : Int) * 10) + (d : Int)) = ((acc * 10 + d : Nat) : Int) := by
      rw [hmul, toInt64_of_range (by omega) (by omega)]
      push_cast
      rfl
    simp only [List.map_cons, atoiLoop, hch]
    rw [if_neg (by omega), hstep]
    exact ih (fun x hx => hd x (List.mem_cons_of_mem _ hx)) _ hv

theorem parseUintLoop_digits (ds : List Nat) (hd : ∀ d ∈ ds, d < 10) :
    ∀ acc : Nat, acc < 2 ^ 64 →
      parseUintLoop 10 1844674407370955162 18446744073709551615 (ds.map (48 + ·)) acc
        = if digitsValue acc ds < 2 ^ 64 then (digitsValue acc ds, none)
          else (18446744073709551615, some .ErrRange) := by
  induction ds with
  | nil =>
    intro acc hacc
    simp only [List.map_nil, parseUintLoop, digitsValue, List.foldl_nil]
    rw [if_pos hacc]
  | cons d ds ih =>
    intro acc hacc
    have hd10 : d < 10 := hd d (List.mem_cons_self _ _)
    rw [digitsValue_cons]
    have hle := le_digitsValue ds (acc * 10 + d)
    simp only [List.map_cons, parseUintLoop, digitOf_digit hd10]
    rw [if_neg (by omega)]
    by_cases hc : acc ≥ 1844674407370955162
    · rw [if_pos hc, if_neg (by omega)]
    · rw [if_neg hc]
      have h1 : acc * 10 % 2 ^ 64 = acc * 10 := Nat.mod_eq_of_lt (by omega)
      by_cases hov : acc * 10 + d < 2 ^ 64
      · have h2 : (acc * 10 % 2 ^ 64 + d) % 2 ^ 64 = acc * 10 + d := by
          rw [h1]
          exact Nat.mod_eq_of_lt hov
        simp only [h2]
        rw [if_neg (by omega)]
        exact ih (fun x hx => hd x (List.mem_cons_of_mem _ hx)) _ hov
      · have h2 : (acc * 10 % 2 ^ 64 + d) % 2 ^ 64 < acc * 10 % 2 ^ 64 := by
          rw [h1]
          omega
        rw [if_pos (Or.inl h2), if_neg (by omega)]

end strconv

/-! ## The decimal text of a natural number -/

theorem digitsValue_append (acc d : Nat) (ds : List Nat) :
    digitsValue acc (ds ++ [d]) = digitsValue acc ds * 10 + d := by
  simp [digitsValue, List.foldl_append]

theorem digitsValue_reverse (L : List Nat) : digitsValue 0 L.reverse = Nat.ofDigits 10 L := by
  induction L with
  | nil => rfl
  | cons a L ih =>
    rw [List.reverse_cons, digitsValue_append, ih, Nat.ofDigits_cons]
    omega

theorem toDigitsCore_eq_digits (fuel : Nat) : ∀ (n : Nat) (acc : List Char), 0 < n → n < fuel →
    Nat.toDigitsCore 10 fuel n acc = (Nat.digits 10 n).reverse.map Nat.digitChar ++ acc := by
  induction fuel with
  | zero => intro n acc _ h; omega
  | succ fuel ih =>
    intro n acc hn hlt
    rw [Nat.digits_def' (by decide) hn]
    simp only [Nat.toDigitsCore]
    by_cases h0 : n / 10 = 0
    · rw [if_pos h0, h0]
      simp
    · rw [if_neg h0, ih (n / 10) _ (by omega) (by omega)]
      simp

theorem utf8_digitChar {d : Nat} (h : d < 10) :
    (String.utf8EncodeChar (Nat.digitChar d)).map UInt8.toNat = [48 + d] := by
  interval_cases d <;> rfl

theorem goBytes_digitChars (L : List Nat) (hL : ∀ d ∈ L, d < 10) :
    goBytes (String.mk (L.map Nat.digitChar)) = L.map (48 + ·) := by
  induction L with
  | nil => rfl
  | cons d L ih =>
    have h := ih (fun x hx => hL x (List.mem_cons_of_mem _ hx))
    have hd := utf8_digitChar (hL d (List.mem_cons_self _ _))
    simp only [goBytes, String.toUTF8, List.map_cons, List.flatMap_cons, List.map_append] at h ⊢
    rw [hd, h]
    rfl

theorem goBytes_repr {n : Nat} (hn : 0 < n) :
    goBytes (Nat.repr n) = (Nat.digits 10 n).reverse.map (48 + ·) := by
  have h : Nat.repr n = String.mk ((Nat.digits 10 n).reverse.map Nat.digitChar) := by
    simp [Nat.repr, Nat.toDigits, List.asString, toDigitsCore_eq_digits (n + 1) n [] hn (by omega)]
  rw [h]
  apply goBytes_digitChars
  intro d hd
  exact Nat.digits_lt_base (by decide) (List.mem_reverse.mp hd)

namespace strconv

theorem ParseUint_digits (d : Nat) (ds : List Nat) (hd : ∀ x ∈ d :: ds, x < 10) :
    ParseUint ((d :: ds).map (48 + ·)) 0
      = if digitsValue 0 (d :: ds) < 2 ^ 64 then (digitsValue 0 (d :: ds), none)
        else (18446744073709551615, some .ErrRange) := by
  have h := parseUintLoop_digits (d :: ds) hd 0 (by decide)
  unfold ParseUint
  rw [if_neg (by simp)]
  exact h

theorem ParseInt_digits (d : Nat) (ds : List Nat) (hd : ∀ x ∈ d :: ds, x < 10) :
    ParseInt ((d :: ds).map (48 + ·)) 0
      = if digitsValue 0 (d :: ds) < 2 ^ 63 then ((digitsValue 0 (d :: ds) : Int), none)
        else (9223372036854775807, some .ErrRange) := by
  have hu := ParseUint_digits d ds hd
  have h43 : ¬ (48 + d = 43) := by omega
  have h45 : ¬ (48 + d = 45) := by omega
  have hcut : 2 ^ (IntSize - 1) % 2 ^ 64 = 9223372036854775808 := by decide
  unfold ParseInt
  rw [if_neg (by simp)]
  simp only [List.map_cons, List.head?_cons, Option.some.injEq, h43, h45, or_self, if_false]
  simp only [List.map_cons] at hu
  rw [hu]
  by_cases h64 : digitsValue 0 (d :: ds) < 2 ^ 64
  · rw [if_pos h64]
    by_cases h63 : digitsValue 0 (d :: ds) < 2 ^ 63
    · rw [if_pos h63]
      have hr : toInt64 ((digitsValue 0 (d :: ds) : Nat) : Int) = (digitsValue 0 (d :: ds) : Nat) :=
        toInt64_of_range (by omega) (by omega)
      have hge : ¬ digitsValue 0 (d :: ds) ≥ 9223372036854775808 := by omega
      simp only [if_true, hcut, not_false_eq_true, true_and, false_and, if_false, hge, hr]
    · rw [if_neg h63]
      have hge : digitsValue 0 (d :: ds) ≥ 9223372036854775808 := by omega
      simp only [if_true, hcut, not_false_eq_true, true_and, false_and, if_false, hge]
      rfl
  · rw [if_neg h64, if_neg (show ¬ digitsValue 0 (d :: ds) < 2 ^ 63 by omega)]
    simp only [if_true, hcut, not_false_eq_true, true_and]
    rfl

theorem Atoi_digits (d : Nat) (ds : List Nat) (hd : ∀ x ∈ d :: ds, x < 10)
    (hlen : (d :: ds).length < 19 → digitsValue 0 (d :: ds) < 2 ^ 63) :
    Atoi ((d :: ds).map (48 + ·))
      = if digitsValue 0 (d :: ds) < 2 ^ 63 then ((digitsValue 0 (d :: ds) : Int), none)
        else (9223372036854775807, some .ErrRange) := by
  have h43 : ¬ (48 + d = 43) := by omega
  have h45 : ¬ (48 + d = 45) := by omega
  unfold Atoi
  by_cases hl : (d :: ds).length < 19
  · have hv := hlen hl
    have hloop := atoiLoop_digits (d :: ds) hd 0 hv
    simp only [List.map_cons, Nat.cast_zero] at hloop
    have hl2 : ((d :: ds).map (48 + ·)).length < 19 := by simpa using hl
    simp only [List.map_cons] at hl2
    rw [if_pos (Or.inr ⟨rfl, by simp, hl2⟩)]
    simp only [List.map_cons, List.head?_cons, Option.some.injEq, h43, h45, or_self, if_false,
      false_and, hloop]
    rw [if_pos hv]
  · have hl2 : ¬ ((d :: ds).map (48 + ·)).length < 19 := by simpa using hl
    rw [if_neg (by
      rintro (⟨h, _⟩ | ⟨_, _, h⟩)
      · exact absurd h (by decide)
      · exact hl2 h)]
    simp only [ParseInt_digits d ds hd]
    by_cases h63 : digitsValue 0 (d :: ds) < 2 ^ 63
    · rw [if_pos h63]
      have hr : toInt64 ((digitsValue 0 (d :: ds) : Nat) : Int) = (digitsValue 0 (d :: ds) : Nat) :=
        toInt64_of_range (by omega) (by omega)
      simp [hr]
    · rw [if_neg h63]
      simp [toInt64]

/-- The value `Atoi` gives for the decimal text of a positive number: the
number itself when it fits an `int`, and the largest `int` together with a
range error otherwise. -/
theorem Atoi_repr {n : Nat} (hn : 0 < n) :
    Atoi (goBytes (Nat.repr n))
      = if n < 2 ^ 63 then ((n : Int), none) else (9223372036854775807, some .ErrRange) := by
  have hval : digitsValue 0 (Nat.digits 10 n).reverse = n := by
    rw [digitsValue_reverse, Nat.ofDigits_digits]
  have hlt : ∀ x ∈ (Nat.digits 10 n).reverse, x < 10 := fun x hx =>
    Nat.digits_lt_base (by decide) (List.mem_reverse.mp hx)
  have hpow : n < 10 ^ (Nat.digits 10 n).reverse.length := by
    rw [List.length_reverse]
    exact Nat.lt_base_pow_length_digits (by decide)
  rw [goBytes_repr hn]
  cases hL : (Nat.digits 10 n).reverse with
  | nil =>
    rw [hL] at hval
    simp [digitsValue] at hval
    omega
  | cons d ds =>
    rw [hL] at hval hlt hpow
    have h := Atoi_digits d ds hlt (by
      intro hlen
      rw [hval]
      have h18 : 10 ^ (d :: ds).length ≤ 10 ^ 18 :=
        Nat.pow_le_pow_right (by decide) (by omega)
      omega)
    rw [hval] at h
    exact h

end strconv

namespace strconv

theorem atoiLoop_range : ∀ (cs : List Nat) (acc n : Int), -2 ^ 63 ≤ acc → acc < 2 ^ 63 →
    atoiLoop cs acc = some n → -2 ^ 63 ≤ n ∧ n < 2 ^ 63 := by
  intro cs
  induction cs with
  | nil =>
    intro acc n h1 h2 h
    simp only [atoiLoop, Option.some.injEq] at h
    subst h
    exact ⟨h1, h2⟩
  | cons c cs ih =>
    intro acc n _ _ h
    simp only [atoiLoop] at h
    split at h
    · exact absurd h (by simp)
    · exact ih _ n (toInt64_range _).1 (toInt64_range _).2 h

/-- The value `Atoi` returns is an `int`: it lies in `[-2 ^ 63, 2 ^ 63)`. -/
theorem Atoi_range (s : List Nat) : -2 ^ 63 ≤ (Atoi s).1 ∧ (Atoi s).1 < 2 ^ 63 := by
  unfold Atoi
  simp only []
  by_cases hc : (IntSize = 32 ∧ 0 < s.length ∧ s.length < 10) ∨
      (IntSize = 64 ∧ 0 < s.length ∧ s.length < 19)
  · rw [if_pos hc]
    generalize (if s.head? = some 45 ∨ s.head? = some 43 then s.tail else s) = s'
    by_cases hsg : (s.head? = some 45 ∨ s.head? = some 43) ∧ s'.length < 1
    · rw [if_pos hsg]
      decide
    · rw [if_neg hsg]
      cases hl : atoiLoop s' 0 with
      | none => simp
      | some n =>
        have hr := atoiLoop_range s' 0 n (by decide) (by decide) hl
        by_cases h45 : s.head? = some 45
        · simp only [if_pos h45]
          exact toInt64_range _
        · simp only [if_neg h45]
          exact hr
  · rw [if_neg hc]
    exact toInt64_range _

theorem ParseInt_rejected (s : List Nat) (bitSize : Nat)
    (h : (ParseInt s bitSize).2 = some .ErrSyntax) : (ParseInt s bitSize).1 = 0 := by
  unfold ParseInt at h ⊢
  simp only [] at h ⊢
  by_cases hs : s = []
  · rw [if_pos hs]
  · rw [if_neg hs] at h ⊢
    generalize ParseUint (if s.head? = some 43 ∨ s.head? = some 45 then s.tail else s) bitSize
      = r at h ⊢
    rcases r with ⟨un, _ | _ | _⟩
    · simp only [apply_ite Prod.snd] at h
      split_ifs at h <;> exact absurd h (by decide)
    · rfl
    · simp only [apply_ite Prod.snd] at h
      split_ifs at h <;> exact absurd h (by decide)

/-- When `Atoi` rejects its argument with a syntax error, the value it
returns is zero. -/
theorem Atoi_rejected (s : List Nat) (h : (Atoi s).2 = some .ErrSyntax) : (Atoi s).1 = 0 := by
  unfold Atoi at h ⊢
  simp only [] at h ⊢
  by_cases hc : (IntSize = 32 ∧ 0 < s.length ∧ s.length < 10) ∨
      (IntSize = 64 ∧ 0 < s.length ∧ s.length < 19)
  · rw [if_pos hc] at h ⊢
    generalize (if s.head? = some 45 ∨ s.head? = some 43 then s.tail else s) = s' at h ⊢
    by_cases hsg : (s.head? = some 45 ∨ s.head? = some 43) ∧ s'.length < 1
    · rw [if_pos hsg]
    · rw [if_neg hsg] at h ⊢
      cases hl : atoiLoop s' 0 with
      | none => rfl
      | some n =>
        rw [hl] at h
        exact absurd h (by simp)
  · rw [if_neg hc] at h ⊢
    simp only [] at h
    rw [ParseInt_rejected s 0 h]
    rfl

end strconv

namespace strconv

theorem ParseInt_out_of_range (s : List Nat) (h : (ParseInt s 0).2 = some .ErrRange) :
    (ParseInt s 0).1 = 9223372036854775807 ∨ (ParseInt s 0).1 = -9223372036854775808 := by
  have hcut : 2 ^ (IntSize - 1) % 2 ^ 64 = 9223372036854775808 := by decide
  unfold ParseInt at h ⊢
  simp only [if_true, hcut] at h ⊢
  by_cases hs : s = []
  · rw [if_pos hs] at h
    exact absurd h (by decide)
  · rw [if_neg hs] at h ⊢
    generalize ParseUint (if s.head? = some 43 ∨ s.head? = some 45 then s.tail else s) 0
      = r at h ⊢
    rcases r with ⟨un, _ | _ | _⟩
    · simp only [] at h ⊢
      by_cases c1 : ¬ s.head? = some 45 ∧ un ≥ 9223372036854775808
      · rw [if_pos c1]
        exact Or.inl rfl
      · rw [if_neg c1] at h ⊢
        by_cases c2 : s.head? = some 45 ∧ un > 9223372036854775808
        · rw [if_pos c2]
          exact Or.inr rfl
        · rw [if_neg c2] at h
          exact absurd h (by simp)
    · exact absurd h (by simp)
    · simp only [] at h ⊢
      by_cases c1 : ¬ s.head? = some 45 ∧ un ≥ 9223372036854775808
      · rw [if_pos c1]
        exact Or.inl rfl
      · rw [if_neg c1] at h ⊢
        by_cases c2 : s.head? = some 45 ∧ un > 9223372036854775808
        · rw [if_pos c2]
          exact Or.inr rfl
        · rw [if_neg c2] at h
          exact absurd h (by simp)

/-- When `Atoi` rejects its argument with a range error, the value it
returns is the largest or the smallest `int`, and so not zero. -/
theorem Atoi_out_of_range (s : List Nat) (h : (Atoi s).2 = some .ErrRange) :
    (Atoi s).1 = 9223372036854775807 ∨ (Atoi s).1 = -9223372036854775808 := by
  unfold Atoi at h ⊢
  simp only [] at h ⊢
  by_cases hc : (IntSize = 32 ∧ 0 < s.length ∧ s.length < 10) ∨
      (IntSize = 64 ∧ 0 < s.length ∧ s.length < 19)
  · rw [if_pos hc] at h
    generalize (if s.head? = some 45 ∨ s.head? = some 43 then s.tail else s) = s' at h
    by_cases hsg : (s.head? = some 45 ∨ s.head? = some 43) ∧ s'.length < 1
    · rw [if_pos hsg] at h
      exact absurd h (by decide)
    · rw [if_neg hsg] at h
      cases hl : atoiLoop s' 0 with
      | none =>
        rw [hl] at h
        exact absurd h (by simp)
      | some n =>
        rw [hl] at h
        exact absurd h (by simp)
  · rw [if_neg hc] at h ⊢
    simp only [] at h ⊢
    rcases ParseInt_out_of_range s h with h1 | h1
    · rw [h1]
      exact Or.inl rfl
    · rw [h1]
      exact Or.inr rfl

end strconv

/-! ## The bootstrap -/

theorem Getenv_of_unset {env : Environ} {key : String} (h : env key = none) :
    Getenv env key = "" := by
  simp [Getenv, h]

theorem Getenv_of_set {env : Environ} {key v : String} (h : env key = some v) :
    Getenv env key = v := by
  simp [Getenv, h]

theorem Serve_abort {σ : Type} (env : Environ) (pl : Plugin σ)
    (h : Getenv env "MAGIC_COOKIE_KEY" = "" ∨ Getenv env "MAGIC_COOKIE_VAL" = "" ∨
      Getenv env "PLUGIN_NAME" = "" ∨
      (strconv.Atoi (goBytes (Getenv env "PLUGIN_VERSION"))).1 = 0) :
    Serve env pl = { served := [], panicked := some missingEnvVars } :=
  if_pos h

theorem Serve_proceed {σ : Type} (env : Environ) (pl : Plugin σ)
    (h : ¬ (Getenv env "MAGIC_COOKIE_KEY" = "" ∨ Getenv env "MAGIC_COOKIE_VAL" = "" ∨
      Getenv env "PLUGIN_NAME" = "" ∨
      (strconv.Atoi (goBytes (Getenv env "PLUGIN_VERSION"))).1 = 0)) :
    Serve env pl =
      { served :=
          [{ HandshakeConfig :=
               { ProtocolVersion :=
                   toUint64 (strconv.Atoi (goBytes (Getenv env "PLUGIN_VERSION"))).1
                 MagicCookieKey := Getenv env "MAGIC_COOKIE_KEY"
                 MagicCookieValue := Getenv env "MAGIC_COOKIE_VAL" }
             Plugins := [(Getenv env "PLUGIN_NAME", { Plugin := pl })] }]
        panicked := none } :=
  if_neg h

/-- A version text that `Atoi` rejects with a syntax error counts as a
missing version: `Serve` panics and does not call the transport. -/
theorem Serve_aborts_of_rejected_version {σ : Type} (env : Environ) (pl : Plugin σ)
    (h : (strconv.Atoi (goBytes (Getenv env "PLUGIN_VERSION"))).2 = some .ErrSyntax) :
    Serve env pl = { served := [], panicked := some missingEnvVars } :=
  Serve_abort env pl (Or.inr (Or.inr (Or.inr (strconv.Atoi_rejected _ h))))

/-- A version text that `Atoi` rejects with a range error does not count as
a missing version: with the other three variables non-empty `Serve` does not
panic and calls the transport. -/
theorem Serve_proceeds_of_out_of_range_version {σ : Type} (env : Environ) (pl : Plugin σ)
    (hkey : Getenv env "MAGIC_COOKIE_KEY" ≠ "") (hval : Getenv env "MAGIC_COOKIE_VAL" ≠ "")
    (hname : Getenv env "PLUGIN_NAME" ≠ "")
    (h : (strconv.Atoi (goBytes (Getenv env "PLUGIN_VERSION"))).2 = some .ErrRange) :
    (Serve env pl).panicked = none ∧ (Serve env pl).served.length = 1 := by
  have hgo : ¬ (Getenv env "MAGIC_COOKIE_KEY" = "" ∨ Getenv env "MAGIC_COOKIE_VAL" = "" ∨
      Getenv env "PLUGIN_NAME" = "" ∨
      (strconv.Atoi (goBytes (Getenv env "PLUGIN_VERSION"))).1 = 0) := by
    rintro (h1 | h1 | h1 | h1)
    · exact hkey h1
    · exact hval h1
    · exact hname h1
    · rcases strconv.Atoi_out_of_range _ h with h2 | h2 <;> rw [h2] at h1 <;>
        exact absurd h1 (by decide)
  rw [Serve_proceed env pl hgo]
  exact ⟨rfl, rfl⟩

/-- A version that `Atoi` parses to a negative integer does not count as a
missing version: with the other three variables non-empty `Serve` does not
panic, and the protocol version it hands over is that integer plus `2 ^ 64`. -/
theorem Serve_proceeds_of_negative_version {σ : Type} (env : Environ) (pl : Plugin σ)
    (hkey : Getenv env "MAGIC_COOKIE_KEY" ≠ "") (hval : Getenv env "MAGIC_COOKIE_VAL" ≠ "")
    (hname : Getenv env "PLUGIN_NAME" ≠ "")
    (h : (strconv.Atoi (goBytes (Getenv env "PLUGIN_VERSION"))).1 < 0) :
    (Serve env pl).panicked = none ∧
    (Serve env pl).served.map (fun cfg => (cfg.HandshakeConfig.ProtocolVersion : Int))
      = [(strconv.Atoi (goBytes (Getenv env "PLUGIN_VERSION"))).1 + 2 ^ 64] := by
  have hr := strconv.Atoi_range (goBytes (Getenv env "PLUGIN_VERSION"))
  have hgo : ¬ (Getenv env "MAGIC_COOKIE_KEY" = "" ∨ Getenv env "MAGIC_COOKIE_VAL" = "" ∨
      Getenv env "PLUGIN_NAME" = "" ∨
      (strconv.Atoi (goBytes (Getenv env "PLUGIN_VERSION"))).1 = 0) := by
    rintro (h1 | h1 | h1 | h1)
    · exact hkey h1
    · exact hval h1
    · exact hname h1
    · omega
  rw [Serve_proceed env pl hgo]
  refine ⟨rfl, ?_⟩
  simp only [List.map_cons, List.map_nil, List.cons.injEq, and_true]
  unfold toUint64
  omega

/-- Claim C1: when one of `MAGIC_COOKIE_KEY`, `MAGIC_COOKIE_VAL`, `PLUGIN_NAME`
is unset or empty, or `PLUGIN_VERSION` is unset, empty or `0`, then `Serve`
panics and makes no call of the transport, whatever the other variables and
the implementation are. -/
theorem Serve_aborts_when_variable_missing {σ : Type} (env : Environ) (pl : Plugin σ)
    (h : (env "MAGIC_COOKIE_KEY" = none ∨ env "MAGIC_COOKIE_KEY" = some "") ∨
      (env "MAGIC_COOKIE_VAL" = none ∨ env "MAGIC_COOKIE_VAL" = some "") ∨
      (env "PLUGIN_NAME" = none ∨ env "PLUGIN_NAME" = some "") ∨
      (env "PLUGIN_VERSION" = none ∨ env "PLUGIN_VERSION" = some "" ∨
        env "PLUGIN_VERSION" = some "0")) :
    (Serve env pl).panicked ≠ none ∧ (Serve env pl).served = [] := by
  have habort : Serve env pl = { served := [], panicked := some missingEnvVars } := by
    apply Serve_abort
    rcases h with (h | h) | (h | h) | (h | h) | (h | h | h)
    · exact Or.inl (Getenv_of_unset h)
    · exact Or.inl (Getenv_of_set h)
    · exact Or.inr (Or.inl (Getenv_of_unset h))
    · exact Or.inr (Or.inl (Getenv_of_set h))
    · exact Or.inr (Or.inr (Or.inl (Getenv_of_unset h)))
    · exact Or.inr (Or.inr (Or.inl (Getenv_of_set h)))
    · refine Or.inr (Or.inr (Or.inr ?_))
      rw [Getenv_of_unset h]
      decide
    · refine Or.inr (Or.inr (Or.inr ?_))
      rw [Getenv_of_set h]
      decide
    · refine Or.inr (Or.inr (Or.inr ?_))
      rw [Getenv_of_set h]
      decide
  rw [habort]
  exact ⟨by simp, rfl⟩

/-- The scenario of claim C1 with the version `0`: the premise holds and
`Serve` panics without a call of the transport. -/
theorem Serve_aborts_when_variable_missing_witness :
    ((demoEnv "0" "MAGIC_COOKIE_KEY" = none ∨ demoEnv "0" "MAGIC_COOKIE_KEY" = some "") ∨
      (demoEnv "0" "MAGIC_COOKIE_VAL" = none ∨ demoEnv "0" "MAGIC_COOKIE_VAL" = some "") ∨
      (demoEnv "0" "PLUGIN_NAME" = none ∨ demoEnv "0" "PLUGIN_NAME" = some "") ∨
      (demoEnv "0" "PLUGIN_VERSION" = none ∨ demoEnv "0" "PLUGIN_VERSION" = some "" ∨
        demoEnv "0" "PLUGIN_VERSION" = some "0")) ∧
    ((Serve (demoEnv "0") idlePlugin).panicked ≠ none ∧
      (Serve (demoEnv "0") idlePlugin).served = []) :=
  ⟨by decide, Serve_aborts_when_variable_missing (demoEnv "0") idlePlugin (by decide)⟩

theorem Atoi_repr_ne_zero {n : Nat} (hn : 0 < n) :
    (strconv.Atoi (goBytes (Nat.repr n))).1 ≠ 0 := by
  rw [strconv.Atoi_repr hn]
  by_cases h : n < 2 ^ 63
  · rw [if_pos h]
    simp only [ne_eq, Int.natCast_eq_zero]
    omega
  · rw [if_neg h]
    decide

/-- Claim C2, as stated, fails: with `PLUGIN_VERSION` the decimal text of the
positive integer `2 ^ 63`, and the other three variables non-empty, `Serve`
calls the transport with `ProtocolVersion` `2 ^ 63 - 1`, which is not that
integer. -/
theorem Serve_version_beyond_int_counterexample :
    (Getenv (demoEnv "9223372036854775808") "MAGIC_COOKIE_KEY" ≠ "" ∧
      Getenv (demoEnv "9223372036854775808") "MAGIC_COOKIE_VAL" ≠ "" ∧
      Getenv (demoEnv "9223372036854775808") "PLUGIN_NAME" ≠ "" ∧
      0 < 9223372036854775808 ∧
      demoEnv "9223372036854775808" "PLUGIN_VERSION" = some (Nat.repr 9223372036854775808)) ∧
    (Serve (demoEnv "9223372036854775808") idlePlugin).served.map (·.HandshakeConfig)
      = [{ ProtocolVersion := 9223372036854775807, MagicCookieKey := "k",
           MagicCookieValue := "v" }] ∧
    (9223372036854775807 : Nat) ≠ 9223372036854775808 := by
  decide

/-- Claim C2, amended: when `MAGIC_COOKIE_KEY`, `MAGIC_COOKIE_VAL` and
`PLUGIN_NAME` are non-empty and `PLUGIN_VERSION` is the decimal text of a
positive integer `n` that fits an `int` (`n < 2 ^ 63`), `Serve` does not
panic and calls the transport exactly once, with a handshake descriptor
made of the protocol version `n`, the cookie key and the cookie value. -/
theorem Serve_handshake_of_valid_env {σ : Type} (env : Environ) (pl : Plugin σ) (n : Nat)
    (hkey : Getenv env "MAGIC_COOKIE_KEY" ≠ "") (hval : Getenv env "MAGIC_COOKIE_VAL" ≠ "")
    (hname : Getenv env "PLUGIN_NAME" ≠ "") (hpos : 0 < n) (hfit : n < 2 ^ 63)
    (hver : env "PLUGIN_VERSION" = some (Nat.repr n)) :
    (Serve env pl).panicked = none ∧
    ∃ cfg, (Serve env pl).served = [cfg] ∧
      cfg.HandshakeConfig =
        { ProtocolVersion := n
          MagicCookieKey := Getenv env "MAGIC_COOKIE_KEY"
          MagicCookieValue := Getenv env "MAGIC_COOKIE_VAL" } := by
  have hv : strconv.Atoi (goBytes (Getenv env "PLUGIN_VERSION")) = ((n : Int), none) := by
    rw [Getenv_of_set hver, strconv.Atoi_repr hpos, if_pos hfit]
  have hgo : ¬ (Getenv env "MAGIC_COOKIE_KEY" = "" ∨ Getenv env "MAGIC_COOKIE_VAL" = "" ∨
      Getenv env "PLUGIN_NAME" = "" ∨
      (strconv.Atoi (goBytes (Getenv env "PLUGIN_VERSION"))).1 = 0) := by
    rw [hv]
    simp only [Int.natCast_eq_zero]
    rintro (h | h | h | h)
    · exact hkey h
    · exact hval h
    · exact hname h
    · omega
  rw [Serve_proceed env pl hgo, hv]
  refine ⟨rfl, _, rfl, ?_⟩
  simp only [toUint64_natCast (show n < 2 ^ 64 by omega)]

/-- The scenario of claim C2: key `k`, value `v`, name `demo`, version `3`
give one call of the transport with protocol version 3. -/
theorem Serve_handshake_of_valid_env_witness :
    (Getenv (demoEnv "3") "MAGIC_COOKIE_KEY" ≠ "" ∧ Getenv (demoEnv "3") "MAGIC_COOKIE_VAL" ≠ "" ∧
      Getenv (demoEnv "3") "PLUGIN_NAME" ≠ "" ∧ 0 < 3 ∧ 3 < 2 ^ 63 ∧
      demoEnv "3" "PLUGIN_VERSION" = some (Nat.repr 3)) ∧
    ((Serve (demoEnv "3") idlePlugin).panicked = none ∧
      ∃ cfg, (Serve (demoEnv "3") idlePlugin).served = [cfg] ∧
        cfg.HandshakeConfig =
          { ProtocolVersion := 3
            MagicCookieKey := Getenv (demoEnv "3") "MAGIC_COOKIE_KEY"
            MagicCookieValue := Getenv (demoEnv "3") "MAGIC_COOKIE_VAL" }) :=
  ⟨by decide,
    Serve_handshake_of_valid_env (demoEnv "3") idlePlugin 3 (by decide) (by decide) (by decide)
      (by decide) (by decide) (by decide)⟩

/-- Claim C3, at the failing input: with `PLUGIN_VERSION` set to `-1`, which
`Atoi` parses to the negative integer -1 without an error, `Serve` does not
panic and calls the transport with protocol version `2 ^ 64 - 1`. -/
theorem Serve_negative_version_is_served :
    strconv.Atoi (goBytes "-1") = (-1, none) ∧
    (Serve (demoEnv "-1") idlePlugin).panicked = none ∧
    (Serve (demoEnv "-1") idlePlugin).served.map (·.HandshakeConfig)
      = [{ ProtocolVersion := 18446744073709551615, MagicCookieKey := "k",
           MagicCookieValue := "v" }] := by
  decide

/-- Claim C4, at the failing input: the version `99999999999999999999` is
outside the range of `int` and `Atoi` rejects it with a range error, giving
back the largest `int`; `Serve` does not panic and calls the transport with
protocol version `2 ^ 63 - 1`. The texts `abc` and `3.0`, rejected with a
syntax error, do make `Serve` panic. -/
theorem Serve_out_of_range_version_is_served :
    strconv.Atoi (goBytes "99999999999999999999")
      = (9223372036854775807, some .ErrRange) ∧
    (Serve (demoEnv "99999999999999999999") idlePlugin).panicked = none ∧
    (Serve (demoEnv "99999999999999999999") idlePlugin).served.map (·.HandshakeConfig)
      = [{ ProtocolVersion := 9223372036854775807, MagicCookieKey := "k",
           MagicCookieValue := "v" }] ∧
    (Serve (demoEnv "abc") idlePlugin).panicked = some missingEnvVars ∧
    (Serve (demoEnv "abc") idlePlugin).served.length = 0 ∧
    (Serve (demoEnv "3.0") idlePlugin).panicked = some missingEnvVars ∧
    (Serve (demoEnv "3.0") idlePlugin).served.length = 0 := by
  decide

/-- Claim C5: whenever `Serve` panics, the value it panics with is the one
fixed message that names the four required variables, whichever variables
are missing or invalid. -/
theorem Serve_panic_message {σ : Type} (env : Environ) (pl : Plugin σ) (msg : String)
    (h : (Serve env pl).panicked = some msg) :
    msg = "missing required env vars [MAGIC_COOKIE_KEY, MAGIC_COOKIE_VAL, PLUGIN_NAME, PLUGIN_VERSION]" := by
  by_cases hg : Getenv env "MAGIC_COOKIE_KEY" = "" ∨ Getenv env "MAGIC_COOKIE_VAL" = "" ∨
      Getenv env "PLUGIN_NAME" = "" ∨
      (strconv.Atoi (goBytes (Getenv env "PLUGIN_VERSION"))).1 = 0
  · rw [Serve_abort env pl hg] at h
    simp only [Option.some.injEq] at h
    rw [← h]
    rfl
  · rw [Serve_proceed env pl hg] at h
    exact absurd h (by simp)

/-- The panic of `Serve` in an empty environment, where all four variables
are missing, carries the fixed message. -/
theorem Serve_panic_message_witness :
    (Serve (envOf []) idlePlugin).panicked = some missingEnvVars ∧
    missingEnvVars =
      "missing required env vars [MAGIC_COOKIE_KEY, MAGIC_COOKIE_VAL, PLUGIN_NAME, PLUGIN_VERSION]" :=
  ⟨by decide, Serve_panic_message (envOf []) idlePlugin missingEnvVars (by decide)⟩

/-- Claim C6: in a valid environment (`MAGIC_COOKIE_KEY`, `MAGIC_COOKIE_VAL`,
`PLUGIN_NAME` non-empty, `PLUGIN_VERSION` the decimal text of a positive
integer) the plugin map `Serve` passes to the transport has exactly one
entry: its key is the value of `PLUGIN_NAME`, its value the adapter that
wraps `pl`. -/
theorem Serve_registers_one_plugin {σ : Type} (env : Environ) (pl : Plugin σ) (n : Nat)
    (hkey : Getenv env "MAGIC_COOKIE_KEY" ≠ "") (hval : Getenv env "MAGIC_COOKIE_VAL" ≠ "")
    (hname : Getenv env "PLUGIN_NAME" ≠ "") (hpos : 0 < n)
    (hver : env "PLUGIN_VERSION" = some (Nat.repr n)) :
    ∃ cfg, (Serve env pl).served = [cfg] ∧
      cfg.Plugins = [(Getenv env "PLUGIN_NAME", { Plugin := pl })] := by
  have hgo : ¬ (Getenv env "MAGIC_COOKIE_KEY" = "" ∨ Getenv env "MAGIC_COOKIE_VAL" = "" ∨
      Getenv env "PLUGIN_NAME" = "" ∨
      (strconv.Atoi (goBytes (Getenv env "PLUGIN_VERSION"))).1 = 0) := by
    rw [Getenv_of_set hver]
    rintro (h | h | h | h)
    · exact hkey h
    · exact hval h
    · exact hname h
    · exact Atoi_repr_ne_zero hpos h
  rw [Serve_proceed env pl hgo]
  exact ⟨_, rfl, rfl⟩

/-- The scenario of claim C6: with the name `demo` and the counting
implementation, the only entry of the plugin map is `demo`, bound to the
adapter of that implementation. -/
theorem Serve_registers_one_plugin_witness :
    (Getenv (demoEnv "3") "MAGIC_COOKIE_KEY" ≠ "" ∧ Getenv (demoEnv "3") "MAGIC_COOKIE_VAL" ≠ "" ∧
      Getenv (demoEnv "3") "PLUGIN_NAME" ≠ "" ∧ 0 < 3 ∧
      demoEnv "3" "PLUGIN_VERSION" = some (Nat.repr 3)) ∧
    ∃ cfg, (Serve (demoEnv "3") countingPlugin).served = [cfg] ∧
      cfg.Plugins = [(Getenv (demoEnv "3") "PLUGIN_NAME", { Plugin := countingPlugin })] :=
  ⟨by decide,
    Serve_registers_one_plugin (demoEnv "3") countingPlugin 3 (by decide) (by decide)
      (by decide) (by decide) (by decide)⟩

/-! ## The adapter -/

/-- Claim C7: each of `OnConnect`, `OnReceive` and `OnSend` of the adapter
`plugin{pl}` is that method of `pl`: same state, same arguments left behind,
same response, same error. In particular a payload that `pl` leaves unset
with no failure is unset through the adapter, and a payload that `pl` sets
is the payload seen through the adapter. -/
theorem adapter_forwards {σ : Type} (pl : Plugin σ) :
    (plugin.mk pl).OnConnect = pl.OnConnect ∧
    (plugin.mk pl).OnReceive = pl.OnReceive ∧
    (plugin.mk pl).OnSend = pl.OnSend ∧
    (∀ s r w, (pl.OnReceive s r w).reply.Payload = none → (pl.OnReceive s r w).err = none →
      ((plugin.mk pl).OnReceive s r w).reply.Payload = none ∧
        ((plugin.mk pl).OnReceive s r w).err = none) ∧
    (∀ s r w, (pl.OnSend s r w).reply.Payload = none → (pl.OnSend s r w).err = none →
      ((plugin.mk pl).OnSend s r w).reply.Payload = none ∧
        ((plugin.mk pl).OnSend s r w).err = none) ∧
    (∀ s r w b, (pl.OnReceive s r w).reply.Payload = some b →
      ((plugin.mk pl).OnReceive s r w).reply.Payload = some b) ∧
    (∀ s r w b, (pl.OnSend s r w).reply.Payload = some b →
      ((plugin.mk pl).OnSend s r w).reply.Payload = some b) :=
  ⟨rfl, rfl, rfl, fun _ _ _ h1 h2 => ⟨h1, h2⟩, fun _ _ _ h1 h2 => ⟨h1, h2⟩,
    fun _ _ _ _ h => h, fun _ _ _ _ h => h⟩

/-- The scenarios of claim C7: through the adapter, the request `GET /` is
answered with the payload `GET /mutated` by the mutating implementation, and
with an unset payload and no failure by the idle one. -/
theorem adapter_forwards_witness :
    ((plugin.mk mutatingPlugin).OnReceive () httpRequest emptyResponse).reply.Payload
      = some (goBytes "GET /mutated") ∧
    (((plugin.mk idlePlugin).OnReceive () httpRequest emptyResponse).reply.Payload = none ∧
      ((plugin.mk idlePlugin).OnReceive () httpRequest emptyResponse).err = none) :=
  ⟨(adapter_forwards mutatingPlugin).2.2.2.2.2.1 () httpRequest emptyResponse
      (goBytes "GET /mutated") (by decide),
    (adapter_forwards idlePlugin).2.2.2.1 () httpRequest emptyResponse rfl rfl⟩

/-- Claim C8, as stated, fails: the flagging implementation sets the failure
value of the response and returns `nil`; the adapter hands the response on
with that failure value and returns `nil` as well, for `OnReceive` and for
`OnSend`. -/
theorem adapter_flagged_response_counterexample :
    (flaggingPlugin.OnReceive () httpRequest emptyResponse).reply.Err ≠ none ∧
    ((plugin.mk flaggingPlugin).OnReceive () httpRequest emptyResponse).err = none ∧
    (flaggingPlugin.OnSend () httpRequest emptyResponse).reply.Err ≠ none ∧
    ((plugin.mk flaggingPlugin).OnSend () httpRequest emptyResponse).err = none := by
  decide

/-- Claim C8, amended: the adapter hands the response through exactly as the
callback of the implementation left it, failure value and payload alike, and
the error it returns to the transport is the very error the callback
returns; so it is non-nil exactly when the callback returns a non-nil error,
whether or not the failure value or the payload of the response is set. -/
theorem adapter_failure_passthrough {σ : Type} (pl : Plugin σ) (s : σ) (r : Request)
    (w : Response) :
    (((plugin.mk pl).OnReceive s r w).reply = (pl.OnReceive s r w).reply ∧
      ((plugin.mk pl).OnReceive s r w).reply.Err = (pl.OnReceive s r w).reply.Err ∧
      ((plugin.mk pl).OnReceive s r w).reply.Payload = (pl.OnReceive s r w).reply.Payload ∧
      ((plugin.mk pl).OnReceive s r w).err = (pl.OnReceive s r w).err ∧
      (((plugin.mk pl).OnReceive s r w).err ≠ none ↔ (pl.OnReceive s r w).err ≠ none)) ∧
    (((plugin.mk pl).OnSend s r w).reply = (pl.OnSend s r w).reply ∧
      ((plugin.mk pl).OnSend s r w).reply.Err = (pl.OnSend s r w).reply.Err ∧
      ((plugin.mk pl).OnSend s r w).reply.Payload = (pl.OnSend s r w).reply.Payload ∧
      ((plugin.mk pl).OnSend s r w).err = (pl.OnSend s r w).err ∧
      (((plugin.mk pl).OnSend s r w).err ≠ none ↔ (pl.OnSend s r w).err ≠ none)) :=
  ⟨⟨rfl, rfl, rfl, rfl, Iff.rfl⟩, ⟨rfl, rfl, rfl, rfl, Iff.rfl⟩⟩

/-- Claim C9: the registration callbacks do no work. `Server` returns the
adapter itself and no error, `Client` returns no client and no error, and
both leave the state of the wrapped implementation as it is, so none of its
methods is called. -/
theorem adapter_registration_callbacks {σ β γ : Type} (p : plugin σ) (broker : Option β)
    (client : Option γ) (s : σ) :
    p.Server broker s = { state := s, value := some p, err := none } ∧
    (p.Server broker s).value.map (·.Plugin) = some p.Plugin ∧
    p.Client broker client s = { state := s, value := none, err := none } :=
  ⟨rfl, rfl, rfl⟩

/-- Claim C10: whenever `Serve` does not panic it calls the transport once,
with a non-empty cookie key, a non-empty cookie value, a non-zero protocol
version and a single registered plugin name, which is non-empty; and the
conversion `uint(v)` of a non-zero `int` is non-zero. -/
theorem Serve_hands_over_nonempty_config {σ : Type} (env : Environ) (pl : Plugin σ)
    (h : (Serve env pl).panicked = none) :
    (∃ cfg name, (Serve env pl).served = [cfg] ∧
      cfg.HandshakeConfig.MagicCookieKey ≠ "" ∧
      cfg.HandshakeConfig.MagicCookieValue ≠ "" ∧
      cfg.HandshakeConfig.ProtocolVersion ≠ 0 ∧
      cfg.Plugins.map (·.1) = [name] ∧ name ≠ "") ∧
    (∀ v : Int, -2 ^ 63 ≤ v → v < 2 ^ 63 → v ≠ 0 → toUint64 v ≠ 0 ∧ toUint64 v = v % 2 ^ 64) := by
  refine ⟨?_, fun v h1 h2 h0 => ⟨toUint64_ne_zero h1 h2 h0, ?_⟩⟩
  · by_cases hg : Getenv env "MAGIC_COOKIE_KEY" = "" ∨ Getenv env "MAGIC_COOKIE_VAL" = "" ∨
        Getenv env "PLUGIN_NAME" = "" ∨
        (strconv.Atoi (goBytes (Getenv env "PLUGIN_VERSION"))).1 = 0
    · rw [Serve_abort env pl hg] at h
      exact absurd h (by simp)
    · rw [Serve_proceed env pl hg]
      have hr := strconv.Atoi_range (goBytes (Getenv env "PLUGIN_VERSION"))
      refine ⟨_, Getenv env "PLUGIN_NAME", rfl, ?_, ?_, ?_, rfl, ?_⟩
      · exact fun hk => hg (Or.inl hk)
      · exact fun hk => hg (Or.inr (Or.inl hk))
      · exact toUint64_ne_zero hr.1 hr.2 (fun hk => hg (Or.inr (Or.inr (Or.inr hk))))
      · exact fun hk => hg (Or.inr (Or.inr (Or.inl hk)))
  · unfold toUint64
    omega

/-- The scenario of claim C10 with the version `-1`: `Serve` does not panic,
and the protocol version it hands over, `2 ^ 64 - 1`, is not zero. -/
theorem Serve_hands_over_nonempty_config_witness :
    (Serve (demoEnv "-1") idlePlugin).panicked = none ∧
    ((∃ cfg name, (Serve (demoEnv "-1") idlePlugin).served = [cfg] ∧
      cfg.HandshakeConfig.MagicCookieKey ≠ "" ∧
      cfg.HandshakeConfig.MagicCookieValue ≠ "" ∧
      cfg.HandshakeConfig.ProtocolVersion ≠ 0 ∧
      cfg.Plugins.map (·.1) = [name] ∧ name ≠ "") ∧
    (∀ v : Int, -2 ^ 63 ≤ v → v < 2 ^ 63 → v ≠ 0 →
      toUint64 v ≠ 0 ∧ toUint64 v = v % 2 ^ 64)) :=
  ⟨by decide, Serve_hands_over_nonempty_config (demoEnv "-1") idlePlugin (by decide)⟩

end pluginhooks
